import Mathlib

/-
  Verification of the confluent configuration pipeline against its
  natural-language specification.

  The definitions below embed the Python sources shallowly:
  - src/confluent/base/config.py          (Config.parse, Config._schema, the
    substitution engine, Config._evaluate_data_type,
    Config._evaluate_language_type, Config._evaluate_config_type,
    Config._evaluate_naming_convention_type)
  - src/confluent/generators/java_generator.py (JavaGenerator hooks)
  - src/confluent/base/orchestrator.py    (Orchestrator.dump)

  Classes of the repository that are not part of the provided sources
  (Property, GeneratorBase, ConfigLanguageMapping, the name converter,
  the LanguageConfig base class) are modelled from the specification; each
  such definition carries a doc comment starting with "Modelled from the
  spec:".

  Python strings are modelled as Lean String (character lists), YAML
  scalars as an inductive Yaml value, exceptions as an error sum type
  returned through Except.
-/

namespace Confluent

/-- Closed property-type enum from src/confluent/base/property_type.py
(referenced by config.py and java_generator.py). -/
inductive PropertyType where
  | BOOL | INT | FLOAT | DOUBLE | STRING | REGEX
deriving DecidableEq, Repr

/-- Scalar value of a property, mirroring the Python types admitted by the
schema rule Or(str, bool, int, float).  A float is carried by its textual
repr, which is all the embedded code ever inspects. -/
inductive Value where
  | vStr (s : String)
  | vBool (b : Bool)
  | vInt (n : Int)
  | vFloat (r : String)
deriving DecidableEq, Repr

/-- Modelled from the spec: PropertyModel, a typed, named value with
optional visibility and comment (spec section 3).  The Property class of
base/property.py is not among the provided sources; per the spec it stores
the validated scalar verbatim and `hidden`/`comment` default to absent. -/
structure Property where
  type : PropertyType
  name : String
  value : Value
  hidden : Option Bool
  comment : Option String
deriving DecidableEq, Repr

/-- Naming-convention enum from base/name_converter.py (not among the
provided sources; the member names appear verbatim in
Config._evaluate_naming_convention_type). -/
inductive NamingConventionType where
  | SNAKE_CASE | SCREAMING_SNAKE_CASE | CAMEL_CASE | PASCAL_CASE | KEBAP_CASE
deriving DecidableEq, Repr

/-- Result of Config._evaluate_naming_convention_type: the Python function
either returns a NamingConventionType member or falls through and returns
its argument (a string or None) unchanged. -/
inductive NamingEvalResult where
  | conv (c : NamingConventionType)
  | unchanged (s : Option String)
deriving DecidableEq, Repr

/-- Language tags from base/language_type.py (not among the provided
sources; JAVA and C are referenced by java_config.py and c_config.py). -/
inductive LanguageType where
  | JAVA | C
deriving DecidableEq, Repr

/-- One registry entry of ConfigLanguageMapping: a human-readable name, a
language-type tag and the LanguageConfig implementation for that tag (the
implementation is identified by its language tag here). -/
structure LanguageMapping where
  name : String
  type : LanguageType
  configType : LanguageType
deriving DecidableEq, Repr

/-- Structured document as produced by yaml.safe_load: scalars, sequences
and mappings.  Floats are carried by their textual repr. -/
inductive Yaml where
  | str (s : String)
  | bool (b : Bool)
  | int (n : Int)
  | float (r : String)
  | list (xs : List Yaml)
  | dict (kvs : List (String × Yaml))

/-- Exceptions raised by the embedded code.  Constructor payloads mirror
the arguments passed to the Python exception constructors. -/
inductive ConfError where
  | unknownSubstitution (name : String)
  | recursiveSubstitution (arg : String)
  | replacementTypeError
  | unknownPropertyType (t : String)
  | unknownLanguage (name : String)
  | severalLanguages (name : String)
  | noLanguageConfig
  | severalLanguageConfigs
  | schemaError
  | noPackageName
  | emptyPackageName
  | pyAttributeError
  | unmodelledGenerator
deriving DecidableEq, Repr

/-- Validated language entry: the coerced LanguageType, the optional
file_naming and indent values, and the full entry mapping which
Config.parse forwards verbatim as additional props. -/
structure ValidatedLang where
  type : LanguageType
  fileNaming : Option String
  indent : Option Int
  props : List (String × Yaml)

/-- Result of Schema.validate on the whole document. -/
structure ValidatedDoc where
  languages : List ValidatedLang
  properties : List Property

/-- Modelled from the spec: the per-language composition root built by
Config.parse (the LanguageConfig base class is not among the provided
sources).  It records the constructor arguments Config.parse passes:
config name, the resolved config implementation, the evaluated file-naming
convention, the finalized property list, the indent override and the raw
language entry as additional props. -/
structure LanguageConfig where
  configName : String
  configClass : LanguageType
  fileNaming : NamingEvalResult
  properties : List Property
  indent : Option Int
  additionalProps : List (String × Yaml)

/-- First value bound to the given key in a Python dict represented as an
association list. -/
def yLookup (kvs : List (String × Yaml)) (k : String) : Option Yaml :=
  match kvs with
  | [] => none
  | (k2, v) :: rest => if k2 = k then some v else yLookup rest k

/-- Display form of a YAML value, used only for exception payloads when a
non-string reaches a place expecting a string. -/
def yamlDisplay : Yaml → String
  | .str s => s
  | .bool b => if b then "True" else "False"
  | .int n => toString n
  | .float r => r
  | .list _ => "<list>"
  | .dict _ => "<dict>"

/-- Python str() of a property-scalar value, as interpolated by f-strings
in the generators. -/
def yamlToPyStr : Yaml → String
  | .str s => s
  | .bool b => if b then "True" else "False"
  | .int n => toString n
  | .float r => r
  | .list _ => "<list>"
  | .dict _ => "<dict>"

/-- Python truthiness of a YAML scalar (`not package` in the Java
generator). -/
def pyFalsy : Yaml → Bool
  | .str s => s == ""
  | .bool b => !b
  | .int n => n == 0
  | .float r => r == "0.0" || r == "0"
  | .list xs => xs.isEmpty
  | .dict kvs => kvs.isEmpty

/-- Python truthiness of a property value (`'true' if property.value else
'false'` in the Java generator). -/
def pyTruthyValue : Value → Bool
  | .vStr s => !(s == "")
  | .vBool b => b
  | .vInt n => !(n == 0)
  | .vFloat r => !(r == "0.0" || r == "0")

/-- Python str() of a property value. -/
def valueToPyStr : Value → String
  | .vStr s => s
  | .vBool b => if b then "True" else "False"
  | .vInt n => toString n
  | .vFloat r => r

/-- Config._evaluate_data_type: maps the six recognized property type
strings to PropertyType and raises UnknownPropertyTypeException
otherwise. -/
def evaluateDataType (t : String) : Except ConfError PropertyType :=
  if t = "bool" then .ok .BOOL
  else if t = "int" then .ok .INT
  else if t = "float" then .ok .FLOAT
  else if t = "double" then .ok .DOUBLE
  else if t = "string" then .ok .STRING
  else if t = "regex" then .ok .REGEX
  else .error (.unknownPropertyType t)

/-- Config._evaluate_language_type: filters the registry by name; zero
matches raise UnknownLanguageException, more than one raises
SeveralLanguagesException, otherwise the first match is returned. -/
def evaluateLanguageType (M : List LanguageMapping) (language : String) :
    Except ConfError LanguageType :=
  match (M.filter (fun m => m.name == language)).map (fun m => m.type) with
  | [] => .error (.unknownLanguage language)
  | t :: rest => if rest.isEmpty then .ok t else .error (.severalLanguages language)

/-- Config._evaluate_config_type: filters the registry by language type;
zero matches raise NoLanguageConfigException, more than one raises
SeveralLanguageConfigsException, otherwise the first match is returned. -/
def evaluateConfigType (M : List LanguageMapping) (t : LanguageType) :
    Except ConfError LanguageType :=
  match (M.filter (fun m => m.type == t)).map (fun m => m.configType) with
  | [] => .error .noLanguageConfig
  | c :: rest => if rest.isEmpty then .ok c else .error .severalLanguageConfigs

/-- Config._evaluate_naming_convention_type: compares its argument against
the five recognized strings (note: the kebab convention is selected by the
string "kebap" in the source) and returns the argument unchanged when no
branch matches (in particular for None). -/
def evaluateNamingConventionType (naming : Option String) : NamingEvalResult :=
  if naming = some "snake" then .conv .SNAKE_CASE
  else if naming = some "screaming_snake" then .conv .SCREAMING_SNAKE_CASE
  else if naming = some "camel" then .conv .CAMEL_CASE
  else if naming = some "pascal" then .conv .PASCAL_CASE
  else if naming = some "kebap" then .conv .KEBAP_CASE
  else .unchanged naming

/-- Piece of the output of one re.sub pass: a literal character of the
scanned string or the raw value returned by the replacement callback.
Python builds the result pieces first and type-checks them when joining,
so a non-string replacement only raises after the scan finished. -/
inductive Chunk where
  | lit (c : Char)
  | rep (v : Value)
deriving DecidableEq, Repr

/-- Character class of the regex \w (ASCII fragment): letters, digits and
the underscore. -/
def isWordChar (c : Char) : Bool :=
  c.isAlphanum || c == '_'

/-- Replacement callback of the substitution loop in Config.parse: if the
referenced name equals the current property's name it raises
RecursiveSubstitutionException with the literal message the source passes;
otherwise it collects the values of all properties with the referenced
name and returns the first, raising UnknownSubstitutionException when
there is none. -/
def resolveCallback (props : List Property) (selfName name : String) :
    Except ConfError Value :=
  if name ≠ selfName then
    match (props.filter (fun p => p.name == name)).map (fun p => p.value) with
    | [] => .error (.unknownSubstitution name)
    | v :: _ => .ok v
  else
    .error (.recursiveSubstitution "It\x27s not allowed to reference the property itself")

/-- Scanner state while looking for the pattern \$\x7b(\w+)\x7d: outside a
candidate, just after a dollar sign, or inside the word of a candidate
placeholder. -/
inductive ScanState where
  | normal
  | sawDollar
  | inWord (word : List Char)

/-- One left-to-right pass of re.sub with the placeholder pattern: on a
complete placeholder the callback result is emitted as a replacement
chunk; on a failed candidate the consumed characters are emitted as
literals and scanning resumes one character after the dollar sign, exactly
as the regex engine advances (the characters of a failed candidate other
than the current one cannot start a new match, so re-emitting them as
literals is that resumption).  Replacement text is never rescanned. -/
def scanAux (props : List Property) (selfName : String) :
    ScanState → List Char → Except ConfError (List Chunk)
  | .normal, [] => .ok []
  | .normal, c :: rest =>
    if c = '$' then scanAux props selfName .sawDollar rest
    else Except.map (fun t => .lit c :: t) (scanAux props selfName .normal rest)
  | .sawDollar, [] => .ok [.lit '$']
  | .sawDollar, c :: rest =>
    if c = '\x7b' then scanAux props selfName (.inWord []) rest
    else if c = '$' then
      Except.map (fun t => .lit '$' :: t) (scanAux props selfName .sawDollar rest)
    else
      Except.map (fun t => .lit '$' :: .lit c :: t) (scanAux props selfName .normal rest)
  | .inWord w, [] => .ok (.lit '$' :: .lit '\x7b' :: w.map .lit)
  | .inWord w, c :: rest =>
    if isWordChar c then scanAux props selfName (.inWord (w ++ [c])) rest
    else if c = '\x7d' then
      if w.isEmpty then
        Except.map (fun t => .lit '$' :: .lit '\x7b' :: .lit '\x7d' :: t)
          (scanAux props selfName .normal rest)
      else
        Except.bind (resolveCallback props selfName (String.mk w))
          (fun v => Except.map (fun t => .rep v :: t) (scanAux props selfName .normal rest))
    else if c = '$' then
      Except.map (fun t => .lit '$' :: .lit '\x7b' :: w.map .lit ++ t)
        (scanAux props selfName .sawDollar rest)
    else
      Except.map (fun t => .lit '$' :: .lit '\x7b' :: w.map .lit ++ (.lit c :: t))
        (scanAux props selfName .normal rest)

/-- Python str.join over the collected pieces: literal characters and
string replacements are concatenated in order; the first non-string
replacement raises the TypeError re.sub produces for a callback that did
not return a string. -/
def joinChunks : List Chunk → Except ConfError String
  | [] => .ok ""
  | .lit c :: rest => Except.map (fun t => String.mk [c] ++ t) (joinChunks rest)
  | .rep (.vStr s) :: rest => Except.map (fun t => s ++ t) (joinChunks rest)
  | .rep _ :: _ => .error .replacementTypeError

/-- re.sub of the placeholder pattern over one property value, with the
callback closed over the current property list and the current property
name. -/
def substituteValue (props : List Property) (selfName : String) (s : String) :
    Except ConfError String :=
  Except.bind (scanAux props selfName .normal s.data) joinChunks

/-- Substitution loop of Config.parse: properties are processed in
declaration order; each string value is rewritten in place, so lookups
made while processing a later property see the already-substituted values
of earlier properties and the original values of the current and later
ones.  Non-string values are left untouched. -/
def substLoopAux (done : List Property) :
    List Property → Except ConfError (List Property)
  | [] => .ok done
  | p :: todo =>
    match p.value with
    | .vStr s =>
      Except.bind (substituteValue (done ++ p :: todo) p.name s)
        (fun s2 => substLoopAux (done ++ [{ p with value := .vStr s2 }]) todo)
    | _ => substLoopAux (done ++ [p]) todo

/-- Substitution phase over the full property list. -/
def substituteAll (props : List Property) : Except ConfError (List Property) :=
  substLoopAux [] props

/-- Validation of one language entry per Config._schema: the entry must be
a mapping; the required key type is fed through
Config._evaluate_language_type (a non-string tag matches no registry name
and therefore raises UnknownLanguageException with its display form);
file_naming must be a string and indent an integer when present (a Python
bool passes an isinstance int check); any other key is accepted and the
whole entry is kept as additional props. -/
def validateLanguageEntry (M : List LanguageMapping) (y : Yaml) :
    Except ConfError ValidatedLang :=
  match y with
  | .dict kvs =>
    Except.bind
      (match yLookup kvs "type" with
       | some (.str s) => evaluateLanguageType M s
       | some v => .error (.unknownLanguage (yamlDisplay v))
       | none => .error .schemaError)
      (fun t =>
        Except.bind
          (match yLookup kvs "file_naming" with
           | some (.str s) => .ok (some s)
           | none => .ok none
           | some _ => .error .schemaError)
          (fun fn =>
            Except.bind
              (match yLookup kvs "indent" with
               | some (.int n) => .ok (some n)
               | some (.bool b) => .ok (some (if b then (1 : Int) else 0))
               | none => .ok none
               | some _ => .error .schemaError)
              (fun ind => .ok ⟨t, fn, ind, kvs⟩)))
  | _ => .error .schemaError

/-- Validation of one property entry per Config._schema followed by the
Property construction in Config.parse: required keys type (through
Config._evaluate_data_type), name (a string) and value (a string, bool,
int or float); optional hidden (a bool) and comment (a string); the
property sub-schema has no catch-all, so an unrecognized key is
rejected. -/
def validatePropertyEntry (y : Yaml) : Except ConfError Property :=
  match y with
  | .dict kvs =>
    if kvs.all (fun kv =>
        kv.1 == "type" || kv.1 == "name" || kv.1 == "value" ||
        kv.1 == "hidden" || kv.1 == "comment") then
      Except.bind
        (match yLookup kvs "type" with
         | some (.str s) => evaluateDataType s
         | some v => .error (.unknownPropertyType (yamlDisplay v))
         | none => .error .schemaError)
        (fun t =>
          Except.bind
            (match yLookup kvs "name" with
             | some (.str s) => .ok s
             | _ => .error .schemaError)
            (fun name =>
              Except.bind
                (match yLookup kvs "value" with
                 | some (.str s) => .ok (Value.vStr s)
                 | some (.bool b) => .ok (Value.vBool b)
                 | some (.int n) => .ok (Value.vInt n)
                 | some (.float r) => .ok (Value.vFloat r)
                 | _ => .error .schemaError)
                (fun value =>
                  Except.bind
                    (match yLookup kvs "hidden" with
                     | some (.bool b) => .ok (some b)
                     | none => .ok none
                     | some _ => .error .schemaError)
                    (fun hidden =>
                      Except.bind
                        (match yLookup kvs "comment" with
                         | some (.str s) => .ok (some s)
                         | none => .ok none
                         | some _ => .error .schemaError)
                        (fun comment => .ok ⟨t, name, value, hidden, comment⟩)))))
    else .error .schemaError
  | _ => .error .schemaError

/-- Schema.validate on the whole document, per Config._schema and the
semantics of the third-party schema package: the document must be a
mapping holding exactly the required keys languages and properties; each
key must be bound to a sequence, and every element of a sequence must
validate against the element sub-schema.  A sequence with no elements
validates vacuously, so empty languages and properties sequences are both
accepted. -/
def validateDoc (M : List LanguageMapping) (y : Yaml) :
    Except ConfError ValidatedDoc :=
  match y with
  | .dict kvs =>
    if kvs.all (fun kv => kv.1 == "languages" || kv.1 == "properties") then
      Except.bind
        (match yLookup kvs "languages" with
         | some (.list xs) => xs.mapM (validateLanguageEntry M)
         | _ => .error .schemaError)
        (fun langs =>
          Except.bind
            (match yLookup kvs "properties" with
             | some (.list xs) => xs.mapM validatePropertyEntry
             | _ => .error .schemaError)
            (fun props => .ok ⟨langs, props⟩))
    else .error .schemaError
  | _ => .error .schemaError

/-- Language loop of Config.parse: for each validated language entry, in
declaration order, evaluate the file-naming convention and the config
implementation and construct the LanguageConfig with the shared finalized
property list, the indent override and the full entry as additional
props. -/
def buildConfigs (M : List LanguageMapping) (name : String)
    (props : List Property) :
    List ValidatedLang → Except ConfError (List LanguageConfig)
  | [] => .ok []
  | l :: rest =>
    let fnConv := evaluateNamingConventionType l.fileNaming
    Except.bind (evaluateConfigType M l.type)
      (fun cls =>
        Except.bind (buildConfigs M name props rest)
          (fun more => .ok (⟨name, cls, fnConv, props, l.indent, l.props⟩ :: more)))

/-- Config.parse from the structured document onward: validate, collect
the properties, substitute placeholders in place, remove the hidden
properties, then build one LanguageConfig per language entry. -/
def parse (M : List LanguageMapping) (doc : Yaml) (configName : String) :
    Except ConfError (List LanguageConfig) :=
  Except.bind (validateDoc M doc)
    (fun v =>
      Except.bind (substituteAll v.properties)
        (fun substituted =>
          buildConfigs M configName
            (substituted.filter (fun p => !(p.hidden.getD false))) v.languages))

/-- Modelled from the spec: the static registry built by
ConfigLanguageMapping.get_mappings (not among the provided sources).  Only
the Java pipeline is modelled end to end; per spec section 4.4 the
registry binds each human-readable name to its tag and config
implementation exactly once. -/
def LANGUAGE_MAPPINGS : List LanguageMapping :=
  [⟨"java", .JAVA, .JAVA⟩]

/-- Modelled from the spec: tokenizer of the name converter (not among the
provided sources), spec section 4.3: split an identifier into word tokens
at non-alphanumeric boundaries and at lower-to-upper case transitions.
The accumulator holds the current token in reverse. -/
def splitTokensAux : List Char → List Char → List String
  | [], acc => if acc.isEmpty then [] else [String.mk acc.reverse]
  | c :: rest, acc =>
    if !c.isAlphanum then
      (if acc.isEmpty then [] else [String.mk acc.reverse]) ++ splitTokensAux rest []
    else if c.isUpper && (match acc with | p :: _ => p.isLower | [] => false) then
      (if acc.isEmpty then [] else [String.mk acc.reverse]) ++ splitTokensAux rest [c]
    else
      splitTokensAux rest (c :: acc)

/-- Modelled from the spec: word tokens of an identifier. -/
def splitTokens (s : String) : List String :=
  splitTokensAux s.data []

/-- Modelled from the spec: a capitalized token (first letter upper case,
rest lower case). -/
def capitalizeToken (t : String) : String :=
  match t.data with
  | [] => ""
  | c :: cs => String.mk (c.toUpper :: cs.map Char.toLower)

/-- Concatenation of a list of strings with a separator. -/
def joinSep (sep : String) : List String → String
  | [] => ""
  | [t] => t
  | t :: rest => t ++ sep ++ joinSep sep rest

/-- Modelled from the spec: the naming-convention conversion of the name
converter (not among the provided sources), spec section 4.3. -/
def convertNaming (s : String) (c : NamingConventionType) : String :=
  match c with
  | .SNAKE_CASE => joinSep "_" ((splitTokens s).map String.toLower)
  | .SCREAMING_SNAKE_CASE => joinSep "_" ((splitTokens s).map String.toUpper)
  | .CAMEL_CASE =>
    match (splitTokens s).map capitalizeToken with
    | [] => ""
    | t :: rest => t.toLower ++ joinSep "" rest
  | .PASCAL_CASE => joinSep "" ((splitTokens s).map capitalizeToken)
  | .KEBAP_CASE => joinSep "-" ((splitTokens s).map String.toLower)

/-- JavaGenerator._evaluate_package_name: the additional props must hold a
package entry (NoPackageNameException otherwise) and its value must be
truthy (EmptyPackageNameException otherwise). -/
def evaluatePackageName (props : List (String × Yaml)) : Except ConfError Yaml :=
  match yLookup props "package" with
  | none => .error .noPackageName
  | some pkg => if pyFalsy pkg then .error .emptyPackageName else .ok pkg

/-- JavaGenerator._before_class: the package declaration preamble. -/
def beforeClass (pkg : Yaml) : String :=
  "package " ++ yamlToPyStr pkg ++ ";\n\n"

/-- JavaGenerator._start_class. -/
def startClass (className : String) : String :=
  "public class " ++ className ++ " \x7b"

/-- JavaGenerator._end_class. -/
def endClass : String := "\x7d"

/-- JavaGenerator._property_comment. -/
def propertyComment (comment : String) : String :=
  " /* " ++ comment ++ " */"

/-- Each backslash of a Java string value doubled, as by
value.replace of one backslash with two. -/
def escBackslash : List Char → List Char
  | [] => []
  | c :: rest =>
    if c = '\\' then '\\' :: '\\' :: escBackslash rest else c :: escBackslash rest

/-- JavaGenerator._property_in_class: maps the property type to the Java
type and literal and renders the constant declaration.  For BOOL the
source tests the truthiness of the value; for INT, FLOAT and DOUBLE it
interpolates str() of the value; for STRING and REGEX it calls
value.replace, which fails with an AttributeError when the value is not a
string.  All six property types are covered, so the catch-all raise of the
source match is unreachable. -/
def propertyInClass (p : Property) : Except ConfError String :=
  match p.type with
  | .BOOL =>
    .ok ("public final static boolean " ++ p.name ++ " = " ++
      (if pyTruthyValue p.value then "true" else "false") ++ ";")
  | .INT =>
    .ok ("public final static int " ++ p.name ++ " = " ++ valueToPyStr p.value ++ ";")
  | .FLOAT =>
    .ok ("public final static float " ++ p.name ++ " = " ++ valueToPyStr p.value ++ "f;")
  | .DOUBLE =>
    .ok ("public final static double " ++ p.name ++ " = " ++ valueToPyStr p.value ++ "d;")
  | .STRING | .REGEX =>
    match p.value with
    | .vStr s =>
      .ok ("public final static String " ++ p.name ++ " = \"" ++
        String.mk (escBackslash s.data) ++ "\";")
    | _ => .error .pyAttributeError

/-- Modelled from the spec: the Generator dump orchestration of
GeneratorBase (not among the provided sources), spec section 4.5, bound to
the JavaGenerator hooks: preamble, opening syntax with the type name
converted per the Java default Pascal convention, one indented line per
finalized property (declaration, then the comment when present), closing
syntax.  The default indent width is four spaces. -/
def javaDump (lc : LanguageConfig) : Except ConfError String :=
  Except.bind (evaluatePackageName lc.additionalProps)
    (fun pkg =>
      let className := convertNaming lc.configName .PASCAL_CASE
      let ind := String.mk (List.replicate (lc.indent.getD 4).toNat ' ')
      Except.bind
        (lc.properties.mapM (fun p =>
          Except.map
            (fun decl =>
              ind ++ decl ++
                (match p.comment with
                 | some c => propertyComment c
                 | none => "") ++ "\n")
            (propertyInClass p)))
        (fun lines =>
          .ok (beforeClass pkg ++ startClass className ++ "\n" ++
            String.join lines ++ endClass ++ "\n")))

/-- Rendered text of one LanguageConfig; only the Java implementation is
among the provided sources, so only it is modelled. -/
def langConfigDump (lc : LanguageConfig) : Except ConfError String :=
  match lc.configClass with
  | .JAVA => javaDump lc
  | _ => .error .unmodelledGenerator

/-- Orchestrator.dump over the configs of one parse: the rendered text of
every language configuration, in order. -/
def dumpAll (cfgs : List LanguageConfig) : Except ConfError (List String) :=
  cfgs.mapM langConfigDump

/-- Orchestrator.parse_config followed by Orchestrator.dump. -/
def parseAndDump (M : List LanguageMapping) (doc : Yaml) (configName : String) :
    Except ConfError (List String) :=
  Except.bind (parse M doc configName) dumpAll

/-- Java language entry used by the concrete documents below. -/
def JAVA_ENTRY : Yaml :=
  .dict [("type", .str "java"), ("package", .str "com.example")]

/-- Scenario A document: one bool property MY_FLAG and one Java language
entry with package com.example. -/
def DOC_A : Yaml :=
  .dict [
    ("languages", .list [JAVA_ENTRY]),
    ("properties", .list [
      .dict [("type", .str "bool"), ("name", .str "MY_FLAG"), ("value", .bool true)]])]

/-- Scenario B document: a hidden string property NAME and a string
property GREETING referencing it. -/
def DOC_B : Yaml :=
  .dict [
    ("languages", .list [JAVA_ENTRY]),
    ("properties", .list [
      .dict [("type", .str "string"), ("name", .str "NAME"),
             ("value", .str "World"), ("hidden", .bool true)],
      .dict [("type", .str "string"), ("name", .str "GREETING"),
             ("value", .str "Hello $\x7bNAME\x7d!")]])]

/-- Document with a property whose value references the property
itself. -/
def DOC_SELF : Yaml :=
  .dict [
    ("languages", .list [JAVA_ENTRY]),
    ("properties", .list [
      .dict [("type", .str "string"), ("name", .str "A"),
             ("value", .str "$\x7bA\x7d")]])]

/-- Scenario C document: a language entry whose type has no registry
mapping, together with a schema-valid property whose substitution would
fail, to exhibit that validation aborts first. -/
def DOC_RUBY : Yaml :=
  .dict [
    ("languages", .list [.dict [("type", .str "ruby")]]),
    ("properties", .list [
      .dict [("type", .str "string"), ("name", .str "A"),
             ("value", .str "$\x7bA\x7d")]])]

/-- Document with an indirect substitution cycle: A references B and B
references A. -/
def DOC_CYCLE : Yaml :=
  .dict [
    ("languages", .list [JAVA_ENTRY]),
    ("properties", .list [
      .dict [("type", .str "string"), ("name", .str "A"),
             ("value", .str "x$\x7bB\x7d")],
      .dict [("type", .str "string"), ("name", .str "B"),
             ("value", .str "y$\x7bA\x7d")]])]

/-- Document whose languages and properties sequences are both empty. -/
def DOC_EMPTY : Yaml :=
  .dict [("languages", .list []), ("properties", .list [])]

/-- Document with a Java language entry and no properties. -/
def DOC_NO_PROPS : Yaml :=
  .dict [("languages", .list [JAVA_ENTRY]), ("properties", .list [])]

/-- Validated form of Scenario B. -/
def VDOC_B : ValidatedDoc :=
  ⟨[⟨.JAVA, none, none, [("type", .str "java"), ("package", .str "com.example")]⟩],
   [⟨.STRING, "NAME", .vStr "World", some true, none⟩,
    ⟨.STRING, "GREETING", .vStr "Hello $\x7bNAME\x7d!", none, none⟩]⟩

/-- Scenario B property list after substitution, before the hidden
filter. -/
def SUBST_B : List Property :=
  [⟨.STRING, "NAME", .vStr "World", some true, none⟩,
   ⟨.STRING, "GREETING", .vStr "Hello World!", none, none⟩]

/-- Language configurations produced for Scenario B. -/
def CFGS_B : List LanguageConfig :=
  [⟨"greeting", .JAVA, .unchanged none,
    [⟨.STRING, "GREETING", .vStr "Hello World!", none, none⟩], none,
    [("type", .str "java"), ("package", .str "com.example")]⟩]

/-- Shorthand lemma: binding a successful Except value applies the
continuation. -/
theorem ebind_ok {α β ε : Type} (a : α) (f : α → Except ε β) :
    Except.bind (Except.ok a) f = f a := rfl

/-- Shorthand lemma: binding a failed Except value keeps the failure. -/
theorem ebind_error {α β ε : Type} (e : ε) (f : α → Except ε β) :
    Except.bind (Except.error e) f = Except.error e := rfl

/-- C3: a property whose string value references the property's own name
makes parsing fail with the RecursiveSubstitutionException raised by the
substitution loop; the check fires before the property list is searched.
However, the argument the source passes to the exception constructor is
the fixed message string, not the property's name, so the error does not
carry the name A of the failing property. -/
theorem c3_self_reference_error :
    parse LANGUAGE_MAPPINGS DOC_SELF "t" =
      .error (.recursiveSubstitution
        "It\x27s not allowed to reference the property itself") ∧
    "It\x27s not allowed to reference the property itself" ≠ "A" :=
  ⟨rfl, by decide⟩

/-- C4 counterexample: a document whose languages sequence is empty (and
whose properties sequence is empty) passes schema validation and parses
successfully to an empty list of language configurations, so validation
does not reject an empty languages sequence. -/
theorem c4_counterexample :
    parse LANGUAGE_MAPPINGS DOC_EMPTY "t" = .ok [] := rfl

/-- C4 amended: schema validation accepts an empty languages sequence just
as it accepts an empty properties sequence; a document with both empty
validates and parses to an empty list of language configurations for
every registry and config name, and an empty properties sequence with a
non-empty languages sequence is likewise accepted. -/
theorem c4_empty_sequences_accepted (M : List LanguageMapping) (name : String) :
    validateDoc M DOC_EMPTY = .ok ⟨[], []⟩ ∧
    parse M DOC_EMPTY name = .ok [] ∧
    parse LANGUAGE_MAPPINGS DOC_NO_PROPS "t" =
      .ok [⟨"t", .JAVA, .unchanged none, [], none,
            [("type", .str "java"), ("package", .str "com.example")]⟩] :=
  ⟨rfl, rfl, rfl⟩

/-- C5 counterexample: the string kebab is not recognized by
Config._evaluate_naming_convention_type (the source compares against
kebap), so the evaluation returns its argument unchanged instead of the
KEBAP_CASE member. -/
theorem c5_counterexample :
    evaluateNamingConventionType (some "kebab") ≠
      NamingEvalResult.conv NamingConventionType.KEBAP_CASE := by
  decide

/-- C5 amended: the five naming-convention names recognized by the source
are snake, screaming_snake, camel, pascal and kebap (not kebab), and each
evaluates to the corresponding NamingConventionType member; the
unrecognized string kebab is returned unchanged. -/
theorem c5_naming_convention_names :
    evaluateNamingConventionType (some "snake") = .conv .SNAKE_CASE ∧
    evaluateNamingConventionType (some "screaming_snake") = .conv .SCREAMING_SNAKE_CASE ∧
    evaluateNamingConventionType (some "camel") = .conv .CAMEL_CASE ∧
    evaluateNamingConventionType (some "pascal") = .conv .PASCAL_CASE ∧
    evaluateNamingConventionType (some "kebap") = .conv .KEBAP_CASE ∧
    evaluateNamingConventionType (some "kebab") = .unchanged (some "kebab") :=
  ⟨rfl, rfl, rfl, rfl, rfl, rfl⟩

/-- C8: for the Scenario A input (one bool property MY_FLAG with value
true, one Java language entry with package com.example) the rendered Java
text contains the declaration public final static boolean MY_FLAG = true;
preceded earlier in the text by package com.example; . -/
theorem c8_scenario_a_java_render :
    ∃ before mid after,
      parseAndDump LANGUAGE_MAPPINGS DOC_A "test_config" =
        .ok [before ++ "package com.example;" ++ mid ++
             "public final static boolean MY_FLAG = true;" ++ after] :=
  ⟨"", "\n\npublic class TestConfig \x7b\n    ", "\n\x7d\n", rfl⟩

/-- C9: the parse-and-dump pipeline is deterministic: two runs on equal
configuration documents and equal config names produce equal rendered
output lists; the embedded pipeline is a pure function of its inputs. -/
theorem c9_deterministic (M : List LanguageMapping) (doc1 doc2 : Yaml)
    (n1 n2 : String) (hdoc : doc1 = doc2) (hname : n1 = n2) :
    parseAndDump M doc1 n1 = parseAndDump M doc2 n2 := by
  subst hdoc; subst hname; rfl

/-- C9 witness: the determinism theorem applied to the concrete Scenario A
document. -/
theorem c9_deterministic_witness :
    parseAndDump LANGUAGE_MAPPINGS DOC_A "test_config" =
      parseAndDump LANGUAGE_MAPPINGS DOC_A "test_config" :=
  c9_deterministic LANGUAGE_MAPPINGS DOC_A DOC_A "test_config" "test_config" rfl rfl

/-- C10: substitution terminates on the indirect cycle in which A
references B and B references A: each value is scanned once in
declaration order and spliced-in text is not rescanned, so A becomes
xy$-brace-A-brace (B's original value spliced in) and B becomes
yxy$-brace-A-brace (A's updated value spliced in), the leftover
placeholder staying as literal text, and parsing succeeds. -/
theorem c10_cycle_terminates :
    substituteAll
      [⟨.STRING, "A", .vStr "x$\x7bB\x7d", none, none⟩,
       ⟨.STRING, "B", .vStr "y$\x7bA\x7d", none, none⟩] =
      .ok [⟨.STRING, "A", .vStr "xy$\x7bA\x7d", none, none⟩,
           ⟨.STRING, "B", .vStr "yxy$\x7bA\x7d", none, none⟩] ∧
    parse LANGUAGE_MAPPINGS DOC_CYCLE "t" =
      .ok [⟨"t", .JAVA, .unchanged none,
            [⟨.STRING, "A", .vStr "xy$\x7bA\x7d", none, none⟩,
             ⟨.STRING, "B", .vStr "yxy$\x7bA\x7d", none, none⟩], none,
            [("type", .str "java"), ("package", .str "com.example")]⟩] :=
  ⟨rfl, rfl⟩

/-- C6: registry lookup by name fails with UnknownLanguageException naming
the requested string when no mapping matches and with
SeveralLanguagesException when more than one matches; a validation failure
aborts parsing with that error, so it occurs before any property is
processed and before any rendering. -/
theorem c6_language_lookup (M : List LanguageMapping) (lang : String)
    (doc : Yaml) (name : String) (e : ConfError) :
    (M.filter (fun m => m.name == lang) = [] →
      evaluateLanguageType M lang = .error (.unknownLanguage lang)) ∧
    (1 < (M.filter (fun m => m.name == lang)).length →
      evaluateLanguageType M lang = .error (.severalLanguages lang)) ∧
    (validateDoc M doc = .error e → parse M doc name = .error e) := by
  refine ⟨?_, ?_, ?_⟩
  · intro h
    simp [evaluateLanguageType, h]
  · intro h
    match hf : M.filter (fun m => m.name == lang) with
    | [] => rw [hf] at h; simp at h
    | [a] => rw [hf] at h; simp at h
    | a :: b :: rest => simp [evaluateLanguageType, hf]
  · intro h
    unfold parse
    rw [h, ebind_error]

/-- C6 witness: the lookup theorem applied to the Scenario C input: the
name ruby matches no mapping of the modelled registry, and the document
with that language entry fails to parse with the unknown-language error
even though it also holds a self-referencing property, showing the
failure precedes substitution. -/
theorem c6_language_lookup_witness :
    evaluateLanguageType LANGUAGE_MAPPINGS "ruby" =
      .error (.unknownLanguage "ruby") ∧
    parse LANGUAGE_MAPPINGS DOC_RUBY "t" = .error (.unknownLanguage "ruby") :=
  ⟨(c6_language_lookup LANGUAGE_MAPPINGS "ruby" DOC_RUBY "t"
      (.unknownLanguage "ruby")).1 rfl,
   (c6_language_lookup LANGUAGE_MAPPINGS "ruby" DOC_RUBY "t"
      (.unknownLanguage "ruby")).2.2 rfl⟩

/-- C7: evaluating the Java package name fails with
NoPackageNameException when the additional props hold no package entry and
with EmptyPackageNameException when the package entry is the empty string;
for a non-empty string the evaluation succeeds and the preamble hook
renders the package declaration for it. -/
theorem c7_java_package (props : List (String × Yaml)) (s : String) :
    (yLookup props "package" = none →
      evaluatePackageName props = .error .noPackageName) ∧
    (yLookup props "package" = some (.str "") →
      evaluatePackageName props = .error .emptyPackageName) ∧
    (yLookup props "package" = some (.str s) → s ≠ "" →
      evaluatePackageName props = .ok (.str s) ∧
      beforeClass (.str s) = "package " ++ s ++ ";\n\n") := by
  refine ⟨?_, ?_, ?_⟩
  · intro h
    simp [evaluatePackageName, h]
  · intro h
    simp [evaluatePackageName, h, pyFalsy]
  · intro h hs
    have hfalse : (s == "") = false := beq_eq_false_iff_ne.mpr hs
    refine ⟨?_, rfl⟩
    simp [evaluatePackageName, h, pyFalsy, hfalse]

/-- C7 witness: the package theorem applied to concrete additional props:
missing package, empty package, and the package com.example with its
rendered preamble. -/
theorem c7_java_package_witness :
    evaluatePackageName [] = .error .noPackageName ∧
    evaluatePackageName [("package", .str "")] = .error .emptyPackageName ∧
    evaluatePackageName [("package", .str "com.example")] = .ok (.str "com.example") ∧
    beforeClass (.str "com.example") = "package com.example;\n\n" :=
  ⟨(c7_java_package [] "").1 rfl,
   (c7_java_package [("package", .str "")] "").2.1 rfl,
   ((c7_java_package [("package", .str "com.example")] "com.example").2.2 rfl
     (by decide)).1,
   ((c7_java_package [("package", .str "com.example")] "com.example").2.2 rfl
     (by decide)).2⟩

/-- Every language configuration produced by the language loop carries the
property list the loop was given. -/
theorem buildConfigs_props (M : List LanguageMapping) (name : String)
    (props : List Property) :
    ∀ (langs : List ValidatedLang) (cfgs : List LanguageConfig),
      buildConfigs M name props langs = .ok cfgs →
      ∀ lc ∈ cfgs, lc.properties = props := by
  intro langs
  induction langs with
  | nil =>
    intro cfgs h lc hlc
    unfold buildConfigs at h
    injection h with h2
    subst h2
    simp at hlc
  | cons l rest ih =>
    intro cfgs h lc hlc
    unfold buildConfigs at h
    cases hc : evaluateConfigType M l.type with
    | error e => rw [hc, ebind_error] at h; exact absurd h (by simp)
    | ok cls =>
      rw [hc, ebind_ok] at h
      cases hr : buildConfigs M name props rest with
      | error e => rw [hr, ebind_error] at h; exact absurd h (by simp)
      | ok more =>
        rw [hr, ebind_ok] at h
        injection h with h2
        subst h2
        rcases List.mem_cons.mp hlc with heq | hmem
        · subst heq; rfl
        · exact ih more hr lc hmem

/-- C1: whenever parsing succeeds, every produced language configuration
carries exactly the hidden-filtered form of the property list obtained by
running substitution on the full validated property list, so no property
with hidden true reaches any configuration, while hidden properties are
still present in the list substitution resolves against. -/
theorem c1_hidden_removed_after_substitution (M : List LanguageMapping)
    (doc : Yaml) (name : String) (v : ValidatedDoc) (sp : List Property)
    (cfgs : List LanguageConfig)
    (hv : validateDoc M doc = .ok v)
    (hs : substituteAll v.properties = .ok sp)
    (hp : parse M doc name = .ok cfgs) :
    (cfgs.all (fun lc =>
      lc.properties.all (fun p => !(p.hidden == some true)) &&
      lc.properties == sp.filter (fun p => !(p.hidden.getD false)))) = true := by
  unfold parse at hp
  rw [hv, ebind_ok, hs, ebind_ok] at hp
  have key := buildConfigs_props M name
    (sp.filter (fun p => !(p.hidden.getD false))) v.languages cfgs hp
  rw [List.all_eq_true]
  intro lc hlc
  have hpr := key lc hlc
  rw [Bool.and_eq_true]
  constructor
  · rw [List.all_eq_true]
    intro p hp2
    rw [hpr] at hp2
    have hcond := (List.mem_filter.mp hp2).2
    cases hpb : p.hidden with
    | none => simp
    | some b =>
      cases b with
      | false => simp
      | true => rw [hpb] at hcond; simp at hcond
  · rw [hpr]
    exact beq_self_eq_true _

/-- C1 witness: the theorem applied to the Scenario B document, in which
the hidden property NAME was a valid substitution source for GREETING and
the produced configuration carries only the substituted GREETING. -/
theorem c1_hidden_removed_witness :
    (CFGS_B.all (fun lc =>
      lc.properties.all (fun p => !(p.hidden == some true)) &&
      lc.properties == SUBST_B.filter (fun p => !(p.hidden.getD false)))) = true :=
  c1_hidden_removed_after_substitution LANGUAGE_MAPPINGS DOC_B "greeting"
    VDOC_B SUBST_B CFGS_B rfl rfl rfl

/-- Scanning a character other than the dollar sign in the normal state
emits it as a literal. -/
theorem scan_cons_ne (props : List Property) (selfName : String)
    (c : Char) (l : List Char) (h : c ≠ '$') :
    scanAux props selfName .normal (c :: l) =
      Except.map (fun t => Chunk.lit c :: t) (scanAux props selfName .normal l) := by
  simp only [scanAux]
  rw [if_neg h]

/-- Scanning a dollar-free prefix emits it as literals and continues with
the rest. -/
theorem scan_append_nodollar (props : List Property) (selfName : String) :
    ∀ (l m : List Char), (∀ c ∈ l, c ≠ '$') →
      scanAux props selfName .normal (l ++ m) =
        Except.map (fun t => l.map Chunk.lit ++ t)
          (scanAux props selfName .normal m) := by
  intro l
  induction l with
  | nil =>
    intro m _
    cases h : scanAux props selfName .normal m <;> simp [Except.map, h]
  | cons c l ih =>
    intro m h
    have hc : c ≠ '$' := h c (List.mem_cons_self c l)
    rw [List.cons_append, scan_cons_ne props selfName c (l ++ m) hc,
      ih m (fun d hd => h d (List.mem_cons_of_mem c hd))]
    cases hm : scanAux props selfName .normal m <;> simp [Except.map, hm]

/-- Scanning a dollar-free string emits exactly its literals. -/
theorem scan_all_lits (props : List Property) (selfName : String)
    (l : List Char) (h : ∀ c ∈ l, c ≠ '$') :
    scanAux props selfName .normal l = .ok (l.map Chunk.lit) := by
  have h0 : scanAux props selfName .normal [] = .ok [] := rfl
  have := scan_append_nodollar props selfName l [] h
  simpa [Except.map, h0] using this

/-- Scanning from inside a placeholder word up to the closing brace
resolves the accumulated word through the callback (or flushes the
candidate as literals when the word is empty). -/
theorem scan_inword (props : List Property) (selfName : String) :
    ∀ (w2 w1 m : List Char), (∀ c ∈ w2, isWordChar c = true) →
      scanAux props selfName (.inWord w1) (w2 ++ '\x7d' :: m) =
        if (w1 ++ w2).isEmpty then
          Except.map (fun t => Chunk.lit '$' :: Chunk.lit '\x7b' :: Chunk.lit '\x7d' :: t)
            (scanAux props selfName .normal m)
        else
          Except.bind (resolveCallback props selfName (String.mk (w1 ++ w2)))
            (fun v => Except.map (fun t => Chunk.rep v :: t)
              (scanAux props selfName .normal m)) := by
  intro w2
  induction w2 with
  | nil =>
    intro w1 m _
    simp only [List.nil_append, List.append_nil, scanAux]
    rw [if_neg (by decide : ¬(isWordChar '\x7d' = true)), if_pos trivial]
  | cons c w2 ih =>
    intro w1 m h
    have hc : isWordChar c = true := h c (List.mem_cons_self c w2)
    simp only [List.cons_append, scanAux, List.append_eq]
    rw [if_pos hc, ih (w1 ++ [c]) m (fun d hd => h d (List.mem_cons_of_mem c hd))]
    have hassoc : w1 ++ [c] ++ w2 = w1 ++ c :: w2 := by simp
    rw [hassoc]

/-- Scanning a complete placeholder (dollar, open brace, a non-empty word,
close brace) invokes the callback on the word and emits the result as a
replacement chunk. -/
theorem scan_placeholder (props : List Property) (selfName : String)
    (nd m : List Char) (hw : ∀ c ∈ nd, isWordChar c = true) (hne : nd ≠ []) :
    scanAux props selfName .normal ('$' :: '\x7b' :: (nd ++ '\x7d' :: m)) =
      Except.bind (resolveCallback props selfName (String.mk nd))
        (fun v => Except.map (fun t => Chunk.rep v :: t)
          (scanAux props selfName .normal m)) := by
  simp only [scanAux, if_pos rfl]
  rw [scan_inword props selfName nd [] m hw]
  simp only [List.nil_append]
  have hni : nd.isEmpty = false := by
    cases nd with
    | nil => exact absurd rfl hne
    | cons a l => rfl
  rw [hni, if_neg (by decide : ¬(false = true))]
  simp only [if_true]

/-- Joining a literal prefix prepends the corresponding string. -/
theorem join_lits_append :
    ∀ (l : List Char) (rest : List Chunk),
      joinChunks (l.map Chunk.lit ++ rest) =
        Except.map (fun t => String.mk l ++ t) (joinChunks rest) := by
  intro l
  induction l with
  | nil =>
    intro rest
    simp only [List.map_nil, List.nil_append]
    cases joinChunks rest <;> rfl
  | cons c l ih =>
    intro rest
    simp only [List.map_cons, List.cons_append, joinChunks, List.append_eq]
    rw [ih rest]
    cases h : joinChunks rest <;> rfl

/-- Joining only literals produces exactly their string. -/
theorem join_lits (l : List Char) :
    joinChunks (l.map Chunk.lit) = .ok (String.mk l) := by
  have := join_lits_append l []
  simp only [List.append_nil] at this
  rw [this]
  show Except.ok (String.mk l ++ "") = Except.ok (String.mk l)
  have : String.mk l ++ "" = String.mk l := by
    apply String.ext
    simp [String.data_append]
  rw [this]

/-- Joining pieces that start with a non-string replacement raises the
TypeError of the join. -/
theorem join_rep_nonstr (v : Value) (rest : List Chunk)
    (h : ∀ s, v ≠ .vStr s) :
    joinChunks (Chunk.rep v :: rest) = .error .replacementTypeError := by
  cases v with
  | vStr s => exact absurd rfl (h s)
  | vBool b => rfl
  | vInt n => rfl
  | vFloat r => rfl

/-- C2 amended, substitution of one placeholder: for a property value of
the shape pre-dollar-brace-n-brace-post with dollar-free pre and post, a
non-empty word n different from the current property's name, the
substitution pass searches the full property list in declaration order:
with no match it fails with UnknownSubstitutionException naming n; with a
first match whose value is a string, that string is spliced into the
placeholder's position; with a first match whose value is not a string,
the pass fails with the TypeError re.sub raises for a non-string
replacement instead of splicing a textual form. -/
theorem c2_first_match_spliced (props : List Property)
    (selfName n pre post : String)
    (hpre : ∀ c ∈ pre.data, c ≠ '$')
    (hpost : ∀ c ∈ post.data, c ≠ '$')
    (hn1 : n.data ≠ [])
    (hn2 : ∀ c ∈ n.data, isWordChar c = true)
    (hself : n ≠ selfName) :
    substituteValue props selfName (pre ++ "$\x7b" ++ n ++ "\x7d" ++ post) =
      match props.filter (fun p => p.name == n) with
      | [] => .error (.unknownSubstitution n)
      | p :: _ =>
        match p.value with
        | .vStr s => .ok (pre ++ s ++ post)
        | _ => .error .replacementTypeError := by
  have hdata : (pre ++ "$\x7b" ++ n ++ "\x7d" ++ post).data =
      pre.data ++ ('$' :: '\x7b' :: (n.data ++ '\x7d' :: post.data)) := by
    simp [String.data_append]
  unfold substituteValue
  rw [hdata, scan_append_nodollar props selfName pre.data _ hpre,
    scan_placeholder props selfName n.data post.data hn2 hn1,
    scan_all_lits props selfName post.data hpost]
  have hmk : String.mk n.data = n := rfl
  rw [hmk]
  unfold resolveCallback
  rw [if_pos hself]
  cases hf : props.filter (fun p => p.name == n) with
  | nil =>
    simp [hf, Except.map, Except.bind]
  | cons p rest =>
    simp only [hf, List.map_cons, Except.map, Except.bind, ebind_ok]
    cases hv : p.value with
    | vStr s =>
      rw [join_lits_append]
      have hjoin : joinChunks (Chunk.rep (Value.vStr s) :: post.data.map Chunk.lit) =
          Except.map (fun t => s ++ t) (joinChunks (post.data.map Chunk.lit)) := rfl
      rw [hjoin, join_lits]
      show Except.ok (String.mk pre.data ++ (s ++ String.mk post.data)) =
        Except.ok (pre ++ s ++ post)
      rw [String.append_assoc]
    | vBool b =>
      rw [join_lits_append, join_rep_nonstr _ _ (fun s h => Value.noConfusion h)]
      rfl
    | vInt k =>
      rw [join_lits_append, join_rep_nonstr _ _ (fun s h => Value.noConfusion h)]
      rfl
    | vFloat r =>
      rw [join_lits_append, join_rep_nonstr _ _ (fun s h => Value.noConfusion h)]
      rfl

/-- C2 counterexample: a string property B referencing the bool property A
does not get A's value spliced in; the substitution pass fails with the
TypeError re.sub raises for a non-string replacement, and parsing of a
document holding these two properties fails the same way. -/
theorem c2_counterexample :
    substituteValue [⟨.BOOL, "A", .vBool true, none, none⟩] "B" "x$\x7bA\x7dy" =
      .error .replacementTypeError ∧
    parse LANGUAGE_MAPPINGS
      (.dict [
        ("languages", .list [JAVA_ENTRY]),
        ("properties", .list [
          .dict [("type", .str "bool"), ("name", .str "A"), ("value", .bool true)],
          .dict [("type", .str "string"), ("name", .str "B"),
                 ("value", .str "x$\x7bA\x7dy")]])]) "t" =
      .error .replacementTypeError :=
  ⟨rfl, rfl⟩

/-- C2 witness: the splice theorem applied to concrete inputs: the
placeholder NAME inside the value of GREETING is replaced by the string
value of the hidden property NAME found in the full list, and a
placeholder naming no property fails with UnknownSubstitutionException
naming it. -/
theorem c2_first_match_spliced_witness :
    substituteValue
      [⟨.STRING, "NAME", .vStr "World", some true, none⟩,
       ⟨.STRING, "GREETING", .vStr "Hello $\x7bNAME\x7d!", none, none⟩]
      "GREETING" ("Hello " ++ "$\x7b" ++ "NAME" ++ "\x7d" ++ "!") =
      .ok ("Hello " ++ "World" ++ "!") ∧
    substituteValue [] "B" ("a" ++ "$\x7b" ++ "MISSING" ++ "\x7d" ++ "b") =
      .error (.unknownSubstitution "MISSING") :=
  ⟨c2_first_match_spliced
      [⟨.STRING, "NAME", .vStr "World", some true, none⟩,
       ⟨.STRING, "GREETING", .vStr "Hello $\x7bNAME\x7d!", none, none⟩]
      "GREETING" "NAME" "Hello " "!"
      (by decide) (by decide) (by decide) (by decide) (by decide),
   c2_first_match_spliced [] "B" "MISSING" "a" "b"
      (by decide) (by decide) (by decide) (by decide) (by decide)⟩

end Confluent
